import Mathlib

/-!
Verification development for the `report_todo` repository.

The Rust sources are shallowly embedded: strings are `List Char` (Rust byte
offsets become character offsets), fallible code returns `Option`/`Except`
(`none` models a Rust panic), and the external collaborators (the `regex`
engine and the `syntect` tokenizer) are modelled as injected functions, the
way the code itself treats them as opaque capabilities.
-/

set_option maxHeartbeats 1000000

/-! ## Character-list helpers (Rust `str` operations) -/

/-- Rust `str::trim_start`: drop leading whitespace. -/
def rustTrimStart (l : List Char) : List Char :=
  l.dropWhile Char.isWhitespace

/-- Rust `str::trim_end`: drop trailing whitespace. -/
def rustTrimEnd (l : List Char) : List Char :=
  (l.reverse.dropWhile Char.isWhitespace).reverse

/-- Rust `str::trim`: drop whitespace on both ends. -/
def rustTrim (l : List Char) : List Char :=
  rustTrimEnd (rustTrimStart l)

/-- Rust `str::to_uppercase` (character-wise model). -/
def toUpperChars (l : List Char) : List Char :=
  l.map Char.toUpper

/-- The slice `l[s..e]` (half-open, character offsets). -/
def sliceChars (l : List Char) (s e : Nat) : List Char :=
  (l.drop s).take (e - s)

/-- Rust `str::starts_with`. -/
def startsWithChars (l pfx : List Char) : Bool :=
  pfx.isPrefixOf l

/-- Rust `str::strip_prefix`. -/
def stripPrefixChars (pfx l : List Char) : Option (List Char) :=
  if pfx.isPrefixOf l then some (l.drop pfx.length) else none

/-! ## The finding model (`src/report_todo/src/todo_error.rs`) -/

/-- The result of `Regex::captures` on one line: offsets of the full match
(`m.start()`, `m.end()`, the latter exclusive) and the text of capture
group 1.  The regex engine itself is an external collaborator, so a matcher
is just a function producing this record. -/
structure RegexMatch where
  start : Nat
  stop : Nat
  cap1 : List Char
deriving DecidableEq, Repr

/-- A forbidden-keyword pattern (`\b<keyword>\b`, case-insensitive): the
configured keyword together with its abstract `Regex::find` function
returning the match's half-open offsets. -/
structure BadKeyword where
  keyword : List Char
  find : List Char → Option (Nat × Nat)

/-- The `Regexes` configuration from `todo_error.rs`.  `match_issue` is the
abstract `captures` function of the tracked pattern, `match_issue_replace`
its abstract `Regex::replace` (applied to a text slice and the template),
`issue_link_format` the optional link template, `bad_keywords` the
forbidden-keyword patterns. -/
structure Regexes where
  match_issue : List Char → Option RegexMatch
  match_issue_replace : List Char → List Char → List Char
  issue_link_format : Option (List Char)
  bad_keywords : List BadKeyword

/-- The `TodoError` finding record from `todo_error.rs`. -/
structure TodoError where
  tracking_id : Option (List Char)
  original_line : List Char
  span_len : Nat
  row : Nat
  col : Nat
  file_path : List Char
  message : List Char
  help_message : Option (List Char)
deriving DecidableEq, Repr

/-- `TodoError::is_tracked`. -/
def TodoError.is_tracked (t : TodoError) : Bool :=
  t.tracking_id.isSome

/-- Does the keyword pattern's match text, uppercased, agree with the
uppercased configured keyword?  This is the contract of the
`\b<keyword>\b` case-insensitive regex: whatever it matches is a case
variant of the keyword. -/
def kwMatchIsKeyword (line : List Char) (kw : BadKeyword) : Bool :=
  match kw.find line with
  | none => true
  | some m => toUpperChars (sliceChars line m.1 m.2) == toUpperChars kw.keyword

/-- The untracked finding `from_line` builds for keyword `kw` matched at
offsets `m`, written with the configured keyword in the message (the form
the spec describes). -/
def untrackedFinding (file_path line : List Char) (row : Nat)
    (kw : BadKeyword) (m : Nat × Nat) : TodoError :=
  { tracking_id := none
    original_line := line
    span_len := (rustTrim (line.drop m.1)).length
    row := row
    col := m.1 + 1
    file_path := file_path
    message := toUpperChars kw.keyword ++ " found without issue number".data
    help_message := some
      "help: create a work item and reference it here (e.g. `TODO(#1): ...`)".data }

/-- `TodoError::from_line` (todo_error.rs lines 43-102).  `none` models a
panic: the Rust code slices `line[todo_end_index + 1..]` and
`line[todo_start_index..=todo_end_index]`, which are out of bounds when
`todo_end_index + 1 > line.len()`. -/
def TodoError.from_line (config : Regexes) (file_path : List Char)
    (line : List Char) (row : Nat) : Option (List TodoError) :=
  match config.match_issue line with
  | some capture =>
    let todo_start_index := capture.start
    let todo_end_index := capture.stop
    if todo_end_index + 1 ≤ line.length then
      some [{ tracking_id := some capture.cap1
              file_path := file_path
              original_line := line
              span_len := (rustTrim (line.drop todo_start_index)).length
              row := row
              col := todo_start_index + 1
              message := rustTrim (line.drop (todo_end_index + 1))
              help_message := config.issue_link_format.map fun issue_link_format =>
                "link: ".data ++
                  rustTrim (config.match_issue_replace
                    (sliceChars line todo_start_index (todo_end_index + 1))
                    issue_link_format) }]
    else
      none
  | none =>
    some (config.bad_keywords.filterMap fun keyword =>
      (keyword.find line).map fun m =>
        { tracking_id := none
          original_line := line
          span_len := (rustTrim (line.drop m.1)).length
          row := row
          col := m.1 + 1
          file_path := file_path
          message := toUpperChars (sliceChars line m.1 m.2) ++
            " found without issue number".data
          help_message := some
            "help: create a work item and reference it here (e.g. `TODO(#1): ...`)".data })

/-! ## Concrete regex instances used by witnesses

The regex engine is external; witnesses instantiate the abstract matcher
fields with simple literal matchers. -/

/-- First occurrence of `pat` as a literal substring. -/
def litFind (pat : List Char) : List Char → Option Nat
  | [] => if pat = [] then some 0 else none
  | c :: rest =>
    if pat.isPrefixOf (c :: rest) then some 0
    else (litFind pat rest).map (· + 1)

/-- A concrete tracked-pattern matcher recognizing the literal
`TODO(#1):` with capture group `1`. -/
def matchTodoLit (line : List Char) : Option RegexMatch :=
  (litFind "TODO(#1):".data line).map fun i =>
    { start := i, stop := i + 9, cap1 := "1".data }

/-- A concrete `fixme` keyword pattern matching the literal `FIXME`. -/
def kwFixmeLit : BadKeyword :=
  { keyword := "fixme".data
    find := fun line => (litFind "FIXME".data line).map fun i => (i, i + 5) }

/-- A concrete `todo` keyword pattern matching the literal `TODO`. -/
def kwTodoLit : BadKeyword :=
  { keyword := "todo".data
    find := fun line => (litFind "TODO".data line).map fun i => (i, i + 4) }

/-- A concrete rules configuration for witnesses. -/
def cfgLit : Regexes :=
  { match_issue := matchTodoLit
    match_issue_replace := fun _ fmt => fmt
    issue_link_format := some "T".data
    bad_keywords := [kwFixmeLit, kwTodoLit] }

/-! ## Comment scope tracking
(`src/report_todo/src/checkers/source_tree_syntect.rs` lines 130-197, with
an identical copy in `src/report_todo/src/main.rs` lines 103-170)

`syntect` scopes are abstracted to a type `σ` with a caller-supplied
predicate `isComment : σ → Bool` standing for
`prefix_scope.is_prefix_of(scope)` (the `comment` scope test).  Byte
offsets become `Nat`; a `Span` is its pair of offsets. -/

/-- A resolved text extent: `[start, stop)` offsets into the file buffer. -/
structure SpanPos where
  start : Nat
  stop : Nat
deriving DecidableEq, Repr

/-- `span::Span::sub_span` on the original file span `[oStart, oEnd)`:
`none` when the requested range is not a well-formed subrange. -/
def subSpanPos (oStart oEnd s e : Nat) : Option SpanPos :=
  if oStart ≤ s ∧ s ≤ e ∧ e ≤ oEnd then some ⟨s, e⟩ else none

/-- `syntect::parsing::ClearAmount`. -/
inductive ClearAmount where
  | TopN (n : Nat)
  | All
deriving DecidableEq, Repr

/-- `syntect::parsing::ScopeStackOp` over abstract scopes `σ`. -/
inductive ScopeStackOp (σ : Type) where
  | Push (scope : σ)
  | Pop (count : Nat)
  | Clear (amount : ClearAmount)
  | Restore
  | Noop
deriving DecidableEq, Repr

/-- The `CommentScopeStack` state.  The scope stack is kept top-first;
`originalStart`/`originalEnd` are the offsets of the `original` file span. -/
structure CommentScopeStack (σ : Type) where
  originalStart : Nat
  originalEnd : Nat
  current_comment_start : Option Nat
  comment_level : Nat
  scopes_stack : List σ
  cleared_scopes_stack : List (List σ)
deriving DecidableEq, Repr

/-- `CommentScopeStack::new` over the file span `[oStart, oEnd)`. -/
def CommentScopeStack.new (σ : Type) (oStart oEnd : Nat) : CommentScopeStack σ :=
  { originalStart := oStart
    originalEnd := oEnd
    current_comment_start := none
    comment_level := 0
    scopes_stack := []
    cleared_scopes_stack := [] }

/-- The `for _ in 0..count` loop in the `Pop(count)` arm.  `none` models a
panic: popping an empty stack (`pop().unwrap()`), decrementing
`comment_level` past zero (debug-mode underflow), reading an unset
`current_comment_start` (`unwrap()`), or an invalid `sub_span` range. -/
def CommentScopeStack.popScopes {σ : Type} (isComment : σ → Bool)
    (st : CommentScopeStack σ) (lineStart off : Nat) :
    Nat → List SpanPos → Option (CommentScopeStack σ × List SpanPos)
  | 0, acc => some (st, acc)
  | count + 1, acc =>
    match st.scopes_stack with
    | [] => none
    | scope :: rest =>
      if isComment scope then
        match st.comment_level with
        | 0 => none
        | level + 1 =>
          let st' := { st with scopes_stack := rest, comment_level := level }
          if level = 0 then
            match st.current_comment_start with
            | none => none
            | some cs =>
              match subSpanPos st.originalStart st.originalEnd cs (lineStart + off) with
              | none => none
              | some sp =>
                CommentScopeStack.popScopes isComment st' lineStart off count (acc ++ [sp])
          else
            CommentScopeStack.popScopes isComment st' lineStart off count acc
      else
        CommentScopeStack.popScopes isComment
          { st with scopes_stack := rest } lineStart off count acc

/-- One scope transition event `(offset, op)`. -/
def CommentScopeStack.stepOp {σ : Type} (isComment : σ → Bool)
    (st : CommentScopeStack σ) (lineStart : Nat) (op : Nat × ScopeStackOp σ) :
    Option (CommentScopeStack σ × List SpanPos) :=
  match op.2 with
  | .Push scope =>
    let st :=
      if isComment scope then
        { st with
          current_comment_start :=
            if st.comment_level = 0 then some (lineStart + op.1)
            else st.current_comment_start
          comment_level := st.comment_level + 1 }
      else st
    some ({ st with scopes_stack := scope :: st.scopes_stack }, [])
  | .Pop count => CommentScopeStack.popScopes isComment st lineStart op.1 count []
  | .Clear amount =>
    let k :=
      match amount with
      | .TopN n => min n st.scopes_stack.length
      | .All => st.scopes_stack.length
    some ({ st with
            scopes_stack := st.scopes_stack.drop k
            cleared_scopes_stack := st.scopes_stack.take k :: st.cleared_scopes_stack },
          [])
  | .Restore =>
    match st.cleared_scopes_stack with
    | [] => none
    | frame :: rest =>
      some ({ st with
              scopes_stack := frame ++ st.scopes_stack
              cleared_scopes_stack := rest }, [])
  | .Noop => some (st, [])

/-- `CommentScopeStack::process_ops_for_line`: fold the events of one line,
collecting the comment spans finished on that line.  Of `original_line`
only its start offset is consulted (`original_line.start()`), passed as
`lineStart`. -/
def CommentScopeStack.process_ops_for_line {σ : Type} (isComment : σ → Bool)
    (st : CommentScopeStack σ) (lineStart : Nat) :
    List (Nat × ScopeStackOp σ) → Option (CommentScopeStack σ × List SpanPos)
  | [] => some (st, [])
  | op :: ops =>
    match CommentScopeStack.stepOp isComment st lineStart op with
    | none => none
    | some (st', spans) =>
      match CommentScopeStack.process_ops_for_line isComment st' lineStart ops with
      | none => none
      | some (st'', spans') => some (st'', spans ++ spans')

/-! ## Unified diff parser (`src/report_todo/src/checkers/git_diff.rs`) -/

/-- Outcome of a parser step: success, a returned `anyhow` diagnostic, or a
Rust panic (`unwrap` failure / out-of-bounds slice). -/
inductive DiffOutcome (α : Type) where
  | ok (a : α)
  | err (msg : List Char)
  | panicked
deriving DecidableEq, Repr

/-- Split on a separator character; always at least one (possibly empty)
piece, like Rust `str::split(c)`. -/
def splitOnCharL (c : Char) : List Char → List (List Char)
  | [] => [[]]
  | x :: xs =>
    if x = c then [] :: splitOnCharL c xs
    else
      match splitOnCharL c xs with
      | [] => [[x]]
      | p :: ps => (x :: p) :: ps

/-- Drop a trailing empty piece (Rust `str::lines` yields none for the text
after a final newline). -/
def dropLastEmpty (ps : List (List Char)) : List (List Char) :=
  match ps.reverse with
  | [] :: rest => rest.reverse
  | _ => ps

/-- Strip one trailing carriage return, as Rust `str::lines` does. -/
def stripTrailingCr (l : List Char) : List Char :=
  match l.reverse with
  | '\r' :: rest => rest.reverse
  | _ => l

/-- Rust `str::lines`. -/
def rustLines (s : List Char) : List (List Char) :=
  (dropLastEmpty (splitOnCharL '\n' s)).map stripTrailingCr

/-- Rust `str::parse::<usize>`: optional leading `+`, then one or more
digits. -/
def parseUsize (s : List Char) : Option Nat :=
  let t := if s.head? = some '+' then s.tail else s
  if t = [] then none
  else if t.all Char.isDigit then
    some (t.foldl (fun a c => a * 10 + (c.toNat - 48)) 0)
  else none

/-- A changed line of a hunk: text (without the `+`/`-` prefix, trailing
whitespace trimmed) and target row. -/
structure ChangedLine where
  line : List Char
  row : Nat
deriving DecidableEq, Repr

/-- A diff hunk (`git_diff.rs`). -/
structure Hunk where
  file : List Char
  removed : List ChangedLine
  added : List ChangedLine
deriving DecidableEq, Repr

/-- The `UnifiedDiffParser` cursor: the remaining lines and the active file.
`current_patch_remove`/`current_patch_add` mirror the Rust struct's fields,
which are initialized once and never read afterwards. -/
structure UnifiedDiffParser where
  lines : List (List Char)
  current_file : List Char
  current_patch_remove : Nat × Nat
  current_patch_add : Nat × Nat
deriving DecidableEq, Repr

/-- The skip loop at the top of `eat_file_header`: peek lines until one
starts with `--- ` or `+++ `, consuming the others; EOF yields the
`next line exists` context error. -/
def UnifiedDiffParser.skipToMarker : List (List Char) → DiffOutcome (List (List Char))
  | [] => .err "next line exists".data
  | l :: rest =>
    if startsWithChars l "--- ".data || startsWithChars l "+++ ".data then
      .ok (l :: rest)
    else
      UnifiedDiffParser.skipToMarker rest

/-- `UnifiedDiffParser::eat_file_header` (git_diff.rs lines 112-136).
`panicked` models the `strip_prefix("+++ b/").unwrap()` on a `+++ ` line
without the `b/` prefix. -/
def UnifiedDiffParser.eat_file_header (p : UnifiedDiffParser) :
    DiffOutcome UnifiedDiffParser :=
  match UnifiedDiffParser.skipToMarker p.lines with
  | .err m => .err m
  | .panicked => .panicked
  | .ok ls =>
    match ls with
    | [] => .err "source line exists".data
    | source_file_line :: ls2 =>
      if ¬ startsWithChars source_file_line "--- ".data then
        .err ("remove line invalid: ".data ++ source_file_line)
      else
        match ls2 with
        | [] => .err "target line exists".data
        | target_file_line :: ls3 =>
          if ¬ startsWithChars target_file_line "+++ ".data then
            .err ("add line invalid: ".data ++ target_file_line)
          else
            match stripPrefixChars "+++ b/".data target_file_line with
            | none => .panicked
            | some f =>
              .ok { p with lines := ls3, current_file := f }

/-- `UnifiedDiffParser::new`. -/
def UnifiedDiffParser.new (source : List Char) : DiffOutcome UnifiedDiffParser :=
  UnifiedDiffParser.eat_file_header
    { lines := rustLines source
      current_file := []
      current_patch_remove := (0, 0)
      current_patch_add := (0, 0) }

/-- `UnifiedDiffParser::has_more`. -/
def UnifiedDiffParser.has_more (p : UnifiedDiffParser) : Bool :=
  ¬ p.lines.isEmpty

/-- The body-consumption loop of `read_hunk` (`for row in range { let line =
self.lines.next().context(msg)?[1..].trim_end(); ... }`).  Any available
line is consumed, its first character stripped blindly; an empty line makes
the `[1..]` slice panic. -/
def UnifiedDiffParser.consumeBody (missing : List Char) :
    Nat → Nat → List (List Char) → DiffOutcome (List ChangedLine × List (List Char))
  | 0, _, ls => .ok ([], ls)
  | _ + 1, _, [] => .err missing
  | count + 1, row, l :: ls =>
    match l with
    | [] => .panicked
    | _ :: lrest =>
      match UnifiedDiffParser.consumeBody missing count (row + 1) ls with
      | .ok (clines, ls2) => .ok (⟨rustTrimEnd lrest, row⟩ :: clines, ls2)
      | .err m => .err m
      | .panicked => .panicked

/-- Parse one `-<row>[,<len>]` or `+<row>[,<len>]` field: the row must
parse (`context("failed to parse row")`), a present-but-unparsable length
silently defaults to 1 (`.and_then(parse).unwrap_or(1)`). -/
def UnifiedDiffParser.parseRangeField (field : List Char) : DiffOutcome (Nat × Nat) :=
  match splitOnCharL ',' field with
  | [] => .panicked
  | rowPart :: rest =>
    match parseUsize rowPart with
    | none => .err "failed to parse row".data
    | some row =>
      let len :=
        match rest with
        | [] => 1
        | l :: _ => (parseUsize l).getD 1
      .ok (row, row + len)

/-- `UnifiedDiffParser::read_hunk` (git_diff.rs lines 138-221). -/
def UnifiedDiffParser.read_hunk (p : UnifiedDiffParser) :
    DiffOutcome (Hunk × UnifiedDiffParser) :=
  match p.lines with
  | [] => .err "next line exists".data
  | line :: rest =>
    match stripPrefixChars "@@ ".data line with
    | none => .err ("patch line invalid: ".data ++ line)
    | some stripped =>
      match splitOnCharL ' ' stripped with
      | [] => .panicked
      | part1 :: parts =>
        match stripPrefixChars "-".data part1 with
        | none => .err ("patch missing removed section: ".data ++ line)
        | some removed =>
          match UnifiedDiffParser.parseRangeField removed with
          | .err m => .err m
          | .panicked => .panicked
          | .ok current_patch_remove =>
            match parts with
            | [] => .panicked
            | part2 :: _ =>
              match stripPrefixChars "+".data part2 with
              | none => .err ("patch missing added section: ".data ++ line)
              | some added =>
                match UnifiedDiffParser.parseRangeField added with
                | .err m => .err m
                | .panicked => .panicked
                | .ok current_patch_add =>
                  match UnifiedDiffParser.consumeBody "missing removed line".data
                      (current_patch_remove.2 - current_patch_remove.1)
                      current_patch_remove.1 rest with
                  | .err m => .err m
                  | .panicked => .panicked
                  | .ok (removedLines, rest2) =>
                    match UnifiedDiffParser.consumeBody "missing added line".data
                        (current_patch_add.2 - current_patch_add.1)
                        current_patch_add.1 rest2 with
                    | .err m => .err m
                    | .panicked => .panicked
                    | .ok (addedLines, rest3) =>
                      let hunk : Hunk :=
                        { file := p.current_file
                          removed := removedLines
                          added := addedLines }
                      let p' := { p with lines := rest3 }
                      match rest3 with
                      | l :: _ =>
                        if startsWithChars l "diff ".data then
                          match UnifiedDiffParser.eat_file_header p' with
                          | .err m => .err m
                          | .panicked => .panicked
                          | .ok p'' => .ok (hunk, p'')
                        else .ok (hunk, p')
                      | [] => .ok (hunk, p')

/-! ## Run verdict (`src/report_todo/src/main.rs` lines 228-291) -/

/-- The `--report` kind. -/
inductive ReportKind where
  | All
  | Untracked
deriving DecidableEq, Repr

/-- The per-finding filter closure in `main`'s loop. -/
def reportFilter (report_kind : ReportKind) (t : TodoError) : Bool :=
  match report_kind with
  | .Untracked => if !t.is_tracked then true else false
  | .All => true

/-- The run's aggregation: `main` prints every filtered finding, sets
`has_untracked` when a filtered finding is untracked, and finally returns
`Err(UntrackedIssuesFoundError)` (displayed `untracked issues found!`) iff
`has_untracked`.  `issues` is the run's full finding stream. -/
def mainVerdict (report_kind : ReportKind) (issues : List TodoError) :
    Except (List Char) Unit :=
  if (issues.filter (reportFilter report_kind)).any (fun t => !t.is_tracked) then
    .error "untracked issues found!".data
  else
    .ok ()

/-! ## Per-file error handling of the tree-walking checkers -/

/-- Classify every line of a file, threading the row counter
(`file_contents.lines().enumerate()`, row = index + 1); `none` propagates a
`from_line` panic. -/
def collectLines (config : Regexes) (file_path : List Char) :
    Nat → List (List Char) → Option (List TodoError)
  | _, [] => some []
  | row, l :: ls => do
    let a ← TodoError.from_line config file_path l row
    let b ← collectLines config file_path (row + 1) ls
    pure (a ++ b)

/-- Per-file body of `SourceTreeSimpleChecker::process_spans`
(source_tree_simple.rs lines 33-50): `if let Ok(file_contents) =
read_to_string(..)` — a failed or non-UTF-8 read (`read_result = none`)
falls through silently, contributing no findings. -/
def SourceTreeSimpleChecker.process_file (config : Regexes)
    (file_path : List Char) (read_result : Option (List Char)) :
    Option (List TodoError) :=
  match read_result with
  | none => some []
  | some file_contents => collectLines config file_path 1 (rustLines file_contents)

/-- Per-file body of `SourceTreeSyntectChecker::process_spans`
(source_tree_syntect.rs lines 242-277).  `syntax_found` is the result of
`find_syntax_for_file` (resolved by extension without touching the file);
`comment_scan` abstracts the syntect tokenization pipeline over the file
contents.  When a syntax is found the code runs
`read_to_string(file_path).unwrap()`: a failed or non-UTF-8 read panics
(`none`), killing the whole run. -/
def SourceTreeSyntectChecker.process_file (config : Regexes)
    (file_path : List Char) (syntax_found : Bool)
    (read_result : Option (List Char))
    (comment_scan : Regexes → List Char → List Char → Option (List TodoError)) :
    Option (List TodoError) :=
  if syntax_found then
    match read_result with
    | none => none
    | some file_contents => comment_scan config file_path file_contents
  else
    some []

/-- The changed lines a well-formed hunk body yields: each line minus its
prefix character, trailing whitespace trimmed, with sequential rows. -/
def bodyLines : List (List Char) → Nat → List ChangedLine
  | [], _ => []
  | l :: ls, row => ⟨rustTrimEnd (l.drop 1), row⟩ :: bodyLines ls (row + 1)

/-! ## Helper lemmas -/

theorem length_filterMap_option_map {α β γ : Type} (l : List α)
    (f : α → Option β) (g : α → β → γ) :
    (l.filterMap fun a => (f a).map (g a)).length =
      l.countP fun a => (f a).isSome := by
  induction l with
  | nil => rfl
  | cons a l ih =>
    cases h : f a <;> simp [h, ih, List.countP_cons]

theorem filterMap_untracked_eq (file_path line : List Char) (row : Nat) :
    ∀ kws : List BadKeyword, kws.all (kwMatchIsKeyword line) = true →
      (kws.filterMap fun kw =>
        (kw.find line).map fun m =>
          ({ tracking_id := none
             original_line := line
             span_len := (rustTrim (line.drop m.1)).length
             row := row
             col := m.1 + 1
             file_path := file_path
             message := toUpperChars (sliceChars line m.1 m.2) ++
               " found without issue number".data
             help_message := some
               "help: create a work item and reference it here (e.g. `TODO(#1): ...`)".data } :
            TodoError)) =
      kws.filterMap fun kw => (kw.find line).map (untrackedFinding file_path line row kw) := by
  intro kws
  induction kws with
  | nil => intro _; rfl
  | cons kw kws ih =>
    intro hall
    rw [List.all_cons, Bool.and_eq_true] at hall
    have hkw := hall.1
    rw [List.filterMap_cons, List.filterMap_cons, ih hall.2]
    unfold kwMatchIsKeyword at hkw
    cases hf : kw.find line with
    | none => rfl
    | some m =>
      rw [hf] at hkw
      have heq : toUpperChars (sliceChars line m.1 m.2) = toUpperChars kw.keyword :=
        beq_iff_eq.mp hkw
      simp [untrackedFinding, heq]

/-! ## Claim theorems: the matcher (`TodoError::from_line`) -/

/-- C1 (code_bug evaluation): on a line whose tracked-pattern match extends
to the line's final character, `from_line` does not return one tracked
finding — it panics (the `line[todo_end_index + 1..]` slice is out of
bounds), modelled as `none`. -/
theorem from_line_panics_on_line_ending_match :
    TodoError.from_line cfgLit "src/lib.rs".data "// TODO(#1):".data 1 = none := by
  decide

/-- C2 (counterexample): the help message is not equal to the link template
with the capture substitution applied; the code wraps the (trimmed)
substitution result in a `link: ` prefix.  Here the abstract substitution
returns the template itself, `T`, but the stored help message is
`link: T`. -/
theorem from_line_help_message_not_bare_template :
    ((TodoError.from_line cfgLit "a.rs".data "TODO(#1): x".data 1).map
      fun l => l.map TodoError.help_message) = some [some "link: T".data] ∧
    ("link: T".data : List Char) ≠ "T".data := by
  constructor
  · decide
  · decide

/-- C2 (amended): when the tracked pattern matches with the match ending
strictly before the line's end, the single finding has tracking id =
capture group 1, column = 1-indexed match start, message = the text after
the match's end offset, trimmed, span length = remaining trimmed length
from the match start, and help message = `link: ` followed by the trimmed
substitution applied to the segment from the match start through one
character past the match end, when a template is configured, else none. -/
theorem from_line_tracked_fields (config : Regexes) (file_path line : List Char)
    (row : Nat) (m : RegexMatch)
    (hm : config.match_issue line = some m)
    (he : m.stop + 1 ≤ line.length) :
    TodoError.from_line config file_path line row =
      some [{ tracking_id := some m.cap1
              original_line := line
              span_len := (rustTrim (line.drop m.start)).length
              row := row
              col := m.start + 1
              file_path := file_path
              message := rustTrim (line.drop (m.stop + 1))
              help_message := config.issue_link_format.map fun fmt =>
                "link: ".data ++ rustTrim (config.match_issue_replace
                  (sliceChars line m.start (m.stop + 1)) fmt) }] := by
  unfold TodoError.from_line
  rw [hm]
  simp [he]

/-- C2 witness: the amended field contract evaluated on a concrete line. -/
theorem from_line_tracked_fields_witness :
    cfgLit.match_issue "// TODO(#1): fix".data = some ⟨3, 12, "1".data⟩ ∧
    12 + 1 ≤ ("// TODO(#1): fix".data).length ∧
    TodoError.from_line cfgLit "b.rs".data "// TODO(#1): fix".data 5 =
      some [{ tracking_id := some "1".data
              original_line := "// TODO(#1): fix".data
              span_len := 13
              row := 5
              col := 4
              file_path := "b.rs".data
              message := "fix".data
              help_message := some "link: T".data }] :=
  ⟨by decide, by decide,
    (from_line_tracked_fields cfgLit "b.rs".data "// TODO(#1): fix".data 5
      ⟨3, 12, "1".data⟩ (by decide) (by decide)).trans (by decide)⟩

/-- C3: when the tracked pattern does not match, `from_line` emits, for each
forbidden-keyword pattern that matches the line, exactly one untracked
finding (tracking id absent, column = 1-indexed match start, message =
`<UPPERCASED KEYWORD> found without issue number`), one finding per
matching keyword. -/
theorem from_line_untracked_findings (config : Regexes)
    (file_path line : List Char) (row : Nat)
    (hm : config.match_issue line = none)
    (hkw : config.bad_keywords.all (kwMatchIsKeyword line) = true) :
    TodoError.from_line config file_path line row =
      some (config.bad_keywords.filterMap fun kw =>
        (kw.find line).map (untrackedFinding file_path line row kw)) ∧
    (TodoError.from_line config file_path line row).map List.length =
      some (config.bad_keywords.countP fun kw => (kw.find line).isSome) := by
  have hmain :
      TodoError.from_line config file_path line row =
        some (config.bad_keywords.filterMap fun kw =>
          (kw.find line).map (untrackedFinding file_path line row kw)) := by
    unfold TodoError.from_line
    rw [hm]
    rw [filterMap_untracked_eq file_path line row config.bad_keywords hkw]
  refine ⟨hmain, ?_⟩
  rw [hmain]
  exact congrArg some (length_filterMap_option_map config.bad_keywords _ _)

/-- C3 witness: a line containing both `FIXME` and `TODO` (and no tracked
marker) yields exactly the two untracked findings. -/
theorem from_line_untracked_findings_witness :
    cfgLit.match_issue "see FIXME and TODO now".data = none ∧
    cfgLit.bad_keywords.all (kwMatchIsKeyword "see FIXME and TODO now".data) = true ∧
    TodoError.from_line cfgLit "c.rs".data "see FIXME and TODO now".data 2 =
      some [untrackedFinding "c.rs".data "see FIXME and TODO now".data 2 kwFixmeLit (4, 9),
            untrackedFinding "c.rs".data "see FIXME and TODO now".data 2 kwTodoLit (14, 18)] ∧
    (TodoError.from_line cfgLit "c.rs".data "see FIXME and TODO now".data 2).map
      List.length = some 2 :=
  ⟨by decide, by decide,
    ((from_line_untracked_findings cfgLit "c.rs".data "see FIXME and TODO now".data 2
      (by decide) (by decide)).1).trans (by decide),
    ((from_line_untracked_findings cfgLit "c.rs".data "see FIXME and TODO now".data 2
      (by decide) (by decide)).2).trans (by decide)⟩

/-- C10: `from_line` is total only when the tracked match ends strictly
before the line's end: if the match's end offset equals the line length the
function panics (`none`); if it is strictly smaller the function returns. -/
theorem from_line_total_iff_match_not_at_line_end :
    (∀ (config : Regexes) (file_path line : List Char) (row : Nat) (m : RegexMatch),
      config.match_issue line = some m → m.stop = line.length →
      TodoError.from_line config file_path line row = none) ∧
    (∀ (config : Regexes) (file_path line : List Char) (row : Nat) (m : RegexMatch),
      config.match_issue line = some m → m.stop + 1 ≤ line.length →
      (TodoError.from_line config file_path line row).isSome = true) := by
  constructor
  · intro config file_path line row m hm hend
    unfold TodoError.from_line
    rw [hm]
    simp [hend]
  · intro config file_path line row m hm he
    unfold TodoError.from_line
    rw [hm]
    simp [he]

/-- C10 witness: both directions evaluated at concrete lines. -/
theorem from_line_total_iff_match_not_at_line_end_witness :
    (cfgLit.match_issue "x TODO(#1):".data = some ⟨2, 11, "1".data⟩ ∧
      (⟨2, 11, "1".data⟩ : RegexMatch).stop = ("x TODO(#1):".data).length ∧
      TodoError.from_line cfgLit "d.rs".data "x TODO(#1):".data 3 = none) ∧
    (cfgLit.match_issue "TODO(#1): y".data = some ⟨0, 9, "1".data⟩ ∧
      (⟨0, 9, "1".data⟩ : RegexMatch).stop + 1 ≤ ("TODO(#1): y".data).length ∧
      (TodoError.from_line cfgLit "d.rs".data "TODO(#1): y".data 3).isSome = true) :=
  ⟨⟨by decide, by decide,
      from_line_total_iff_match_not_at_line_end.1 cfgLit "d.rs".data
        "x TODO(#1):".data 3 ⟨2, 11, "1".data⟩ (by decide) (by decide)⟩,
    ⟨by decide, by decide,
      from_line_total_iff_match_not_at_line_end.2 cfgLit "d.rs".data
        "TODO(#1): y".data 3 ⟨0, 9, "1".data⟩ (by decide) (by decide)⟩⟩

/-! ## Claim theorems: comment scope tracking -/

theorem popScopes_from_level_zero {σ : Type} (isComment : σ → Bool)
    (lineStart off : Nat) :
    ∀ (count : Nat) (st : CommentScopeStack σ) (acc : List SpanPos)
      (st' : CommentScopeStack σ) (out : List SpanPos),
      CommentScopeStack.popScopes isComment st lineStart off count acc =
        some (st', out) →
      st.comment_level = 0 →
      out = acc ∧ st'.comment_level = 0 := by
  intro count
  induction count with
  | zero =>
    intro st acc st' out hp h0
    unfold CommentScopeStack.popScopes at hp
    cases hp
    exact ⟨rfl, h0⟩
  | succ n ih =>
    intro st acc st' out hp h0
    unfold CommentScopeStack.popScopes at hp
    split at hp
    · exact absurd hp (by simp)
    · split at hp
      · split at hp
        · exact absurd hp (by simp)
        · next level heq => rw [h0] at heq; exact absurd heq (by simp)
      · exact ih _ _ _ _ hp h0

theorem popScopes_emission {σ : Type} (isComment : σ → Bool)
    (lineStart off : Nat) :
    ∀ (count : Nat) (st : CommentScopeStack σ) (acc : List SpanPos)
      (st' : CommentScopeStack σ) (out : List SpanPos),
      CommentScopeStack.popScopes isComment st lineStart off count acc =
        some (st', out) →
      out = acc ∨ (out.length = acc.length + 1 ∧ st'.comment_level = 0) := by
  intro count
  induction count with
  | zero =>
    intro st acc st' out hp
    unfold CommentScopeStack.popScopes at hp
    cases hp
    exact Or.inl rfl
  | succ n ih =>
    intro st acc st' out hp
    unfold CommentScopeStack.popScopes at hp
    split at hp
    · exact absurd hp (by simp)
    · split at hp
      · split at hp
        · exact absurd hp (by simp)
        · next level heq =>
          split at hp
          · next hl0 =>
            split at hp
            · exact absurd hp (by simp)
            · split at hp
              · exact absurd hp (by simp)
              · have h2 := popScopes_from_level_zero isComment lineStart off n
                  _ _ _ _ hp hl0
                refine Or.inr ⟨?_, h2.2⟩
                rw [h2.1]
                simp
          · rcases ih _ _ _ _ hp with h | h
            · exact Or.inl h
            · exact Or.inr h
      · rcases ih _ _ _ _ hp with h | h
        · exact Or.inl h
        · exact Or.inr h

/-- C4: a span is emitted only at the moment comment nesting returns to
zero: any single event that emits ends with `comment_level = 0` and emits
at most one span; and for the event sequence
`[Push(comment), Push(comment), Pop(1), Pop(1)]` on one line exactly one
span is emitted, covering from the offset recorded at the first push to
the offset of the final pop (half-open). -/
theorem comment_spans_emitted_at_nesting_zero (σ : Type) (isComment : σ → Bool) :
    (∀ (st : CommentScopeStack σ) (lineStart : Nat) (op : Nat × ScopeStackOp σ)
        (st' : CommentScopeStack σ) (spans : List SpanPos),
      CommentScopeStack.stepOp isComment st lineStart op = some (st', spans) →
      spans ≠ [] → st'.comment_level = 0 ∧ spans.length = 1) ∧
    (∀ (scope : σ) (oStart oEnd lineStart o1 o2 o3 o4 : Nat),
      isComment scope = true →
      oStart ≤ lineStart + o1 → o1 ≤ o4 → lineStart + o4 ≤ oEnd →
      CommentScopeStack.process_ops_for_line isComment
          (CommentScopeStack.new σ oStart oEnd) lineStart
          [(o1, .Push scope), (o2, .Push scope), (o3, .Pop 1), (o4, .Pop 1)] =
        some ({ originalStart := oStart
                originalEnd := oEnd
                current_comment_start := some (lineStart + o1)
                comment_level := 0
                scopes_stack := []
                cleared_scopes_stack := [] },
              [⟨lineStart + o1, lineStart + o4⟩])) := by
  constructor
  · intro st lineStart op st' spans hstep hne
    unfold CommentScopeStack.stepOp at hstep
    split at hstep
    · cases hstep; exact absurd rfl hne
    · rcases popScopes_emission isComment lineStart op.1 _ _ _ _ _ hstep with h | h
      · exact absurd h hne
      · exact ⟨h.2, by rw [h.1]; rfl⟩
    · cases hstep; exact absurd rfl hne
    · split at hstep
      · exact absurd hstep (by simp)
      · cases hstep; exact absurd rfl hne
    · cases hstep; exact absurd rfl hne
  · intro scope oStart oEnd lineStart o1 o2 o3 o4 hc h1 h2 h3
    have hsub : subSpanPos oStart oEnd (lineStart + o1) (lineStart + o4) =
        some ⟨lineStart + o1, lineStart + o4⟩ := by
      unfold subSpanPos
      rw [if_pos]
      exact ⟨h1, by omega, h3⟩
    simp [CommentScopeStack.process_ops_for_line, CommentScopeStack.stepOp,
      CommentScopeStack.popScopes, CommentScopeStack.new, hc, hsub]

/-- C4 witness: the nested-comment example at concrete offsets. -/
theorem comment_spans_emitted_at_nesting_zero_witness :
    (id true : Bool) = true ∧ (0 : Nat) ≤ 0 + 2 ∧ (2 : Nat) ≤ 9 ∧ (0 : Nat) + 9 ≤ 50 ∧
    CommentScopeStack.process_ops_for_line id (CommentScopeStack.new Bool 0 50) 0
        [(2, .Push true), (3, .Push true), (5, .Pop 1), (9, .Pop 1)] =
      some ({ originalStart := 0
              originalEnd := 50
              current_comment_start := some (0 + 2)
              comment_level := 0
              scopes_stack := []
              cleared_scopes_stack := [] },
            [⟨0 + 2, 0 + 9⟩]) :=
  ⟨by decide, by decide, by decide, by decide,
    (comment_spans_emitted_at_nesting_zero Bool id).2 true 0 50 0 2 3 5 9
      (by decide) (by decide) (by decide) (by decide)⟩

/-- C5 (counterexample): after `[Push(comment), Pop(1)]` from the initial
state (which satisfies the claimed invariant), the span is emitted and
`comment_level = 0`, yet `current_comment_start` is `some 0`, not `none` —
the code never clears the recorded start. -/
theorem comment_start_not_cleared_after_emit :
    CommentScopeStack.process_ops_for_line id (CommentScopeStack.new Bool 0 10) 0
        [(0, .Push true), (1, .Pop 1)] =
      some ({ originalStart := 0
              originalEnd := 10
              current_comment_start := some 0
              comment_level := 0
              scopes_stack := []
              cleared_scopes_stack := [] },
            [⟨0, 1⟩]) ∧
    (some 0 : Option Nat) ≠ none := by
  constructor
  · decide
  · decide

theorem popScopes_preserves_start_isSome {σ : Type} (isComment : σ → Bool)
    (lineStart off : Nat) :
    ∀ (count : Nat) (st : CommentScopeStack σ) (acc : List SpanPos)
      (st' : CommentScopeStack σ) (out : List SpanPos),
      CommentScopeStack.popScopes isComment st lineStart off count acc =
        some (st', out) →
      (st.comment_level ≠ 0 → st.current_comment_start ≠ none) →
      (st'.comment_level ≠ 0 → st'.current_comment_start ≠ none) := by
  intro count
  induction count with
  | zero =>
    intro st acc st' out hp hinv
    unfold CommentScopeStack.popScopes at hp
    cases hp
    exact hinv
  | succ n ih =>
    intro st acc st' out hp hinv
    unfold CommentScopeStack.popScopes at hp
    split at hp
    · exact absurd hp (by simp)
    · next scope rest hs =>
      split at hp
      · split at hp
        · exact absurd hp (by simp)
        · next level heq =>
          split at hp
          · next hl0 =>
            split at hp
            · exact absurd hp (by simp)
            · split at hp
              · exact absurd hp (by simp)
              · refine ih _ _ _ _ hp ?_
                intro hl
                exact absurd hl0 (by simpa using hl)
          · next hl0 =>
            refine ih _ _ _ _ hp ?_
            intro _
            have : st.comment_level ≠ 0 := by rw [heq]; simp
            simpa using hinv this
      · refine ih _ _ _ _ hp ?_
        exact hinv

/-- C5 (amended): the weaker invariant `comment_level ≠ 0 →
current_comment_start ≠ none` is preserved by `process_ops_for_line` from
any state satisfying it; the recorded start is retained, not cleared, when
a `Pop` brings nesting to zero (it is only overwritten by the next
comment-opening push at nesting zero). -/
theorem process_ops_preserves_start_isSome {σ : Type} (isComment : σ → Bool)
    (lineStart : Nat) :
    ∀ (ops : List (Nat × ScopeStackOp σ)) (st st' : CommentScopeStack σ)
      (spans : List SpanPos),
      CommentScopeStack.process_ops_for_line isComment st lineStart ops =
        some (st', spans) →
      (st.comment_level ≠ 0 → st.current_comment_start ≠ none) →
      (st'.comment_level ≠ 0 → st'.current_comment_start ≠ none) := by
  intro ops
  induction ops with
  | nil =>
    intro st st' spans hp hinv
    unfold CommentScopeStack.process_ops_for_line at hp
    cases hp
    exact hinv
  | cons op ops ih =>
    intro st st' spans hp hinv
    unfold CommentScopeStack.process_ops_for_line at hp
    split at hp
    · exact absurd hp (by simp)
    · next stMid spansMid hstep =>
      split at hp
      · exact absurd hp (by simp)
      · next stEnd spansEnd hrest =>
        cases hp
        refine ih _ _ _ hrest ?_
        -- one step preserves the invariant
        unfold CommentScopeStack.stepOp at hstep
        split at hstep
        · next scope heq =>
          cases hstep
          by_cases hc : isComment scope = true
          · rw [if_pos hc]
            by_cases hl : st.comment_level = 0
            · rw [if_pos hl]
              intro _
              simp
            · rw [if_neg hl]  
              intro _
              simpa using hinv hl
          · rw [if_neg hc]
            exact hinv
        · exact popScopes_preserves_start_isSome isComment lineStart op.1 _ _ _ _ _
            hstep hinv
        · cases hstep
          exact hinv
        · split at hstep
          · exact absurd hstep (by simp)
          · cases hstep
            exact hinv
        · cases hstep
          exact hinv

/-- C5 witness: the preserved (weaker) invariant evaluated after a single
comment push from the initial state. -/
theorem process_ops_preserves_start_isSome_witness :
    CommentScopeStack.process_ops_for_line id (CommentScopeStack.new Bool 0 10) 0
        [(0, .Push true)] =
      some ({ originalStart := 0
              originalEnd := 10
              current_comment_start := some 0
              comment_level := 1
              scopes_stack := [true]
              cleared_scopes_stack := [] }, []) ∧
    ((CommentScopeStack.new Bool 0 10).comment_level ≠ 0 →
      (CommentScopeStack.new Bool 0 10).current_comment_start ≠ none) ∧
    ({ originalStart := 0
       originalEnd := 10
       current_comment_start := some 0
       comment_level := 1
       scopes_stack := [true]
       cleared_scopes_stack := [] } :
      CommentScopeStack Bool).current_comment_start ≠ none :=
  ⟨by decide, by decide,
    process_ops_preserves_start_isSome id 0 [(0, .Push true)]
      (CommentScopeStack.new Bool 0 10)
      { originalStart := 0
        originalEnd := 10
        current_comment_start := some 0
        comment_level := 1
        scopes_stack := [true]
        cleared_scopes_stack := [] }
      [] (by decide) (by decide) (by decide)⟩

/-! ## Claim theorems: the unified diff parser -/

theorem parseDigits_all (t : List Char) (n : Nat)
    (h : (if t = [] then none
          else if t.all Char.isDigit then
            some (t.foldl (fun a c => a * 10 + (c.toNat - 48)) 0)
          else none) = some n) :
    t.all Char.isDigit = true := by
  split at h
  · exact absurd h (by simp)
  · split at h
    · assumption
    · exact absurd h (by simp)

theorem parseUsize_not_mem (s : List Char) (n : Nat) (c : Char)
    (h : parseUsize s = some n) (hc : c ≠ '+') (hd : c.isDigit = false) :
    c ∉ s := by
  intro hmem
  unfold parseUsize at h
  by_cases hh : s.head? = some '+'
  · rw [if_pos hh] at h
    have hall := parseDigits_all _ _ h
    cases s with
    | nil => cases hmem
    | cons a r =>
      have ha : a = '+' := by simpa using hh
      rcases List.mem_cons.mp hmem with h1 | h1
      · exact hc (h1.trans ha)
      · have := (List.all_eq_true.mp hall) c h1
        rw [hd] at this
        exact absurd this (by simp)
  · rw [if_neg hh] at h
    have hall := parseDigits_all _ _ h
    have := (List.all_eq_true.mp hall) c hmem
    rw [hd] at this
    exact absurd this (by simp)

theorem splitOnCharL_not_mem (c : Char) (xs : List Char) (h : c ∉ xs) :
    splitOnCharL c xs = [xs] := by
  induction xs with
  | nil => rfl
  | cons x xs ih =>
    have hx : ¬ x = c := fun hx => h (by rw [← hx]; exact List.mem_cons_self x xs)
    have ih2 := ih (fun hx2 => h (List.mem_cons_of_mem x hx2))
    conv_lhs => unfold splitOnCharL
    rw [if_neg hx, ih2]

theorem splitOnCharL_append (c : Char) (xs ys : List Char) (h : c ∉ xs) :
    splitOnCharL c (xs ++ c :: ys) = xs :: splitOnCharL c ys := by
  induction xs with
  | nil =>
    rw [List.nil_append]
    conv_lhs => unfold splitOnCharL
    rw [if_pos rfl]
  | cons x xs ih =>
    have hx : ¬ x = c := fun hx => h (by rw [← hx]; exact List.mem_cons_self x xs)
    have ih2 := ih (fun hx2 => h (List.mem_cons_of_mem x hx2))
    show splitOnCharL c (x :: (xs ++ c :: ys)) = (x :: xs) :: splitOnCharL c ys
    conv_lhs => unfold splitOnCharL
    rw [if_neg hx, ih2]

theorem stripPrefixChars_append (pfx rest : List Char) :
    stripPrefixChars pfx (pfx ++ rest) = some rest := by
  unfold stripPrefixChars
  rw [if_pos, List.drop_left]
  exact List.isPrefixOf_iff_prefix.mpr (List.prefix_append pfx rest)

theorem consumeBody_append (missing : List Char) :
    ∀ (body rest : List (List Char)) (row : Nat),
      (∀ l ∈ body, l ≠ []) →
      UnifiedDiffParser.consumeBody missing body.length row (body ++ rest) =
        .ok (bodyLines body row, rest) := by
  intro body
  induction body with
  | nil => intro rest row _; rfl
  | cons l ls ih =>
    intro rest row h
    have hl : l ≠ [] := h l (List.mem_cons_self l ls)
    have ih2 := ih rest (row + 1) (fun x hx => h x (List.mem_cons_of_mem l hx))
    show UnifiedDiffParser.consumeBody missing (ls.length + 1) row
      (l :: (ls ++ rest)) = _
    cases l with
    | nil => exact absurd rfl hl
    | cons a lrest =>
      unfold UnifiedDiffParser.consumeBody
      rw [ih2]
      rfl

theorem parseRangeField_pair (rs ns : List Char) (r n : Nat)
    (hr : parseUsize rs = some r) (hn : parseUsize ns = some n) :
    UnifiedDiffParser.parseRangeField (rs ++ ',' :: ns) = .ok (r, r + n) := by
  have hco_rs : ',' ∉ rs := parseUsize_not_mem rs r ',' hr (by decide) (by decide)
  have hco_ns : ',' ∉ ns := parseUsize_not_mem ns n ',' hn (by decide) (by decide)
  unfold UnifiedDiffParser.parseRangeField
  rw [splitOnCharL_append ',' rs ns hco_rs, splitOnCharL_not_mem ',' ns hco_ns]
  simp [hr, hn]

theorem parseRangeField_single (rs : List Char) (r : Nat)
    (hr : parseUsize rs = some r) :
    UnifiedDiffParser.parseRangeField rs = .ok (r, r + 1) := by
  have hco_rs : ',' ∉ rs := parseUsize_not_mem rs r ',' hr (by decide) (by decide)
  unfold UnifiedDiffParser.parseRangeField
  rw [splitOnCharL_not_mem ',' rs hco_rs]
  simp [hr]

theorem read_hunk_wellformed_pair (cf : List Char) (cpr cpa : Nat × Nat)
    (r1 n1 r2 n2 : Nat) (rs ns as2 bs tl : List Char)
    (bodyR bodyA rest : List (List Char))
    (h1 : parseUsize rs = some r1) (h2 : parseUsize ns = some n1)
    (h3 : parseUsize as2 = some r2) (h4 : parseUsize bs = some n2)
    (hlenR : bodyR.length = n1) (hlenA : bodyA.length = n2)
    (hneR : ∀ l ∈ bodyR, l ≠ []) (hneA : ∀ l ∈ bodyA, l ≠ [])
    (hdiff : rest.head?.all (fun l => ¬ startsWithChars l "diff ".data) = true) :
    UnifiedDiffParser.read_hunk
      { lines := ("@@ -".data ++ rs ++ ",".data ++ ns ++ " +".data ++ as2 ++
            ",".data ++ bs ++ " @@".data ++ tl) :: (bodyR ++ (bodyA ++ rest))
        current_file := cf
        current_patch_remove := cpr
        current_patch_add := cpa } =
      .ok ({ file := cf, removed := bodyLines bodyR r1, added := bodyLines bodyA r2 },
           { lines := rest
             current_file := cf
             current_patch_remove := cpr
             current_patch_add := cpa }) := by
  have hsp_rs : ' ' ∉ rs := parseUsize_not_mem rs r1 ' ' h1 (by decide) (by decide)
  have hsp_ns : ' ' ∉ ns := parseUsize_not_mem ns n1 ' ' h2 (by decide) (by decide)
  have hsp_as : ' ' ∉ as2 := parseUsize_not_mem as2 r2 ' ' h3 (by decide) (by decide)
  have hsp_bs : ' ' ∉ bs := parseUsize_not_mem bs n2 ' ' h4 (by decide) (by decide)
  have hp1 : ' ' ∉ ('-' :: (rs ++ ',' :: ns)) := by
    intro hmem
    rcases List.mem_cons.mp hmem with h | h
    · exact absurd h (by decide)
    · rcases List.mem_append.mp h with h | h
      · exact hsp_rs h
      · rcases List.mem_cons.mp h with h | h
        · exact absurd h (by decide)
        · exact hsp_ns h
  have hp2 : ' ' ∉ ('+' :: (as2 ++ ',' :: bs)) := by
    intro hmem
    rcases List.mem_cons.mp hmem with h | h
    · exact absurd h (by decide)
    · rcases List.mem_append.mp h with h | h
      · exact hsp_as h
      · rcases List.mem_cons.mp h with h | h
        · exact absurd h (by decide)
        · exact hsp_bs h
  have hheader : ("@@ -".data ++ rs ++ ",".data ++ ns ++ " +".data ++ as2 ++
        ",".data ++ bs ++ " @@".data ++ tl) =
      "@@ ".data ++ (('-' :: (rs ++ ',' :: ns)) ++
        ' ' :: (('+' :: (as2 ++ ',' :: bs)) ++ ' ' :: ("@@".data ++ tl))) := by
    simp only [show ("@@ -".data : List Char) = '@' :: '@' :: ' ' :: '-' :: [] from rfl,
      show (",".data : List Char) = ',' :: [] from rfl,
      show (" +".data : List Char) = ' ' :: '+' :: [] from rfl,
      show (" @@".data : List Char) = ' ' :: '@' :: '@' :: [] from rfl,
      show ("@@ ".data : List Char) = '@' :: '@' :: ' ' :: [] from rfl,
      List.cons_append, List.nil_append, List.append_assoc]
  have e1 : stripPrefixChars "@@ ".data ("@@ ".data ++ (('-' :: (rs ++ ',' :: ns)) ++
        ' ' :: (('+' :: (as2 ++ ',' :: bs)) ++ ' ' :: ("@@".data ++ tl)))) =
      some (('-' :: (rs ++ ',' :: ns)) ++
        ' ' :: (('+' :: (as2 ++ ',' :: bs)) ++ ' ' :: ("@@".data ++ tl))) :=
    stripPrefixChars_append _ _
  have e2 : splitOnCharL ' ' (('-' :: (rs ++ ',' :: ns)) ++
        ' ' :: (('+' :: (as2 ++ ',' :: bs)) ++ ' ' :: ("@@".data ++ tl))) =
      ('-' :: (rs ++ ',' :: ns)) :: ('+' :: (as2 ++ ',' :: bs)) ::
        splitOnCharL ' ' ("@@".data ++ tl) := by
    rw [splitOnCharL_append ' ' _ _ hp1, splitOnCharL_append ' ' _ _ hp2]
  have e3 : stripPrefixChars "-".data ('-' :: (rs ++ ',' :: ns)) =
      some (rs ++ ',' :: ns) := stripPrefixChars_append "-".data (rs ++ ',' :: ns)
  have e4 : stripPrefixChars "+".data ('+' :: (as2 ++ ',' :: bs)) =
      some (as2 ++ ',' :: bs) := stripPrefixChars_append "+".data (as2 ++ ',' :: bs)
  have e5 := parseRangeField_pair rs ns r1 n1 h1 h2
  have e6 := parseRangeField_pair as2 bs r2 n2 h3 h4
  have ebR : UnifiedDiffParser.consumeBody "missing removed line".data n1 r1
      (bodyR ++ (bodyA ++ rest)) = .ok (bodyLines bodyR r1, bodyA ++ rest) := by
    rw [← hlenR]
    exact consumeBody_append _ bodyR (bodyA ++ rest) r1 hneR
  have ebA : UnifiedDiffParser.consumeBody "missing added line".data n2 r2
      (bodyA ++ rest) = .ok (bodyLines bodyA r2, rest) := by
    rw [← hlenA]
    exact consumeBody_append _ bodyA rest r2 hneA
  rw [hheader]
  unfold UnifiedDiffParser.read_hunk
  cases rest with
  | nil =>
    simp only [e1, e2, e3, e4, e5, e6, Nat.add_sub_cancel_left, ebR, ebA]
  | cons l rest2 =>
    have hl : startsWithChars l "diff ".data = false := by
      simpa using hdiff
    simp only [e1, e2, e3, e4, e5, e6, Nat.add_sub_cancel_left, ebR, ebA, hl]
    simp

theorem read_hunk_wellformed_omitted (cf : List Char) (cpr cpa : Nat × Nat)
    (r1 r2 n2 : Nat) (rs as2 bs tl : List Char) (lr : List Char)
    (bodyA rest : List (List Char))
    (h1 : parseUsize rs = some r1)
    (h3 : parseUsize as2 = some r2) (h4 : parseUsize bs = some n2)
    (hlr : lr ≠ []) (hlenA : bodyA.length = n2) (hneA : ∀ l ∈ bodyA, l ≠ [])
    (hdiff : rest.head?.all (fun l => ¬ startsWithChars l "diff ".data) = true) :
    UnifiedDiffParser.read_hunk
      { lines := ("@@ -".data ++ rs ++ " +".data ++ as2 ++
            ",".data ++ bs ++ " @@".data ++ tl) :: (lr :: (bodyA ++ rest))
        current_file := cf
        current_patch_remove := cpr
        current_patch_add := cpa } =
      .ok ({ file := cf
             removed := bodyLines [lr] r1
             added := bodyLines bodyA r2 },
           { lines := rest
             current_file := cf
             current_patch_remove := cpr
             current_patch_add := cpa }) := by
  have hsp_rs : ' ' ∉ rs := parseUsize_not_mem rs r1 ' ' h1 (by decide) (by decide)
  have hsp_as : ' ' ∉ as2 := parseUsize_not_mem as2 r2 ' ' h3 (by decide) (by decide)
  have hsp_bs : ' ' ∉ bs := parseUsize_not_mem bs n2 ' ' h4 (by decide) (by decide)
  have hp1 : ' ' ∉ ('-' :: rs) := by
    intro hmem
    rcases List.mem_cons.mp hmem with h | h
    · exact absurd h (by decide)
    · exact hsp_rs h
  have hp2 : ' ' ∉ ('+' :: (as2 ++ ',' :: bs)) := by
    intro hmem
    rcases List.mem_cons.mp hmem with h | h
    · exact absurd h (by decide)
    · rcases List.mem_append.mp h with h | h
      · exact hsp_as h
      · rcases List.mem_cons.mp h with h | h
        · exact absurd h (by decide)
        · exact hsp_bs h
  have hheader : ("@@ -".data ++ rs ++ " +".data ++ as2 ++
        ",".data ++ bs ++ " @@".data ++ tl) =
      "@@ ".data ++ (('-' :: rs) ++
        ' ' :: (('+' :: (as2 ++ ',' :: bs)) ++ ' ' :: ("@@".data ++ tl))) := by
    simp only [show ("@@ -".data : List Char) = '@' :: '@' :: ' ' :: '-' :: [] from rfl,
      show (",".data : List Char) = ',' :: [] from rfl,
      show (" +".data : List Char) = ' ' :: '+' :: [] from rfl,
      show (" @@".data : List Char) = ' ' :: '@' :: '@' :: [] from rfl,
      show ("@@ ".data : List Char) = '@' :: '@' :: ' ' :: [] from rfl,
      List.cons_append, List.nil_append, List.append_assoc]
  have e1 : stripPrefixChars "@@ ".data ("@@ ".data ++ (('-' :: rs) ++
        ' ' :: (('+' :: (as2 ++ ',' :: bs)) ++ ' ' :: ("@@".data ++ tl)))) =
      some (('-' :: rs) ++
        ' ' :: (('+' :: (as2 ++ ',' :: bs)) ++ ' ' :: ("@@".data ++ tl))) :=
    stripPrefixChars_append _ _
  have e2 : splitOnCharL ' ' (('-' :: rs) ++
        ' ' :: (('+' :: (as2 ++ ',' :: bs)) ++ ' ' :: ("@@".data ++ tl))) =
      ('-' :: rs) :: ('+' :: (as2 ++ ',' :: bs)) ::
        splitOnCharL ' ' ("@@".data ++ tl) := by
    rw [splitOnCharL_append ' ' _ _ hp1, splitOnCharL_append ' ' _ _ hp2]
  have e3 : stripPrefixChars "-".data ('-' :: rs) = some rs :=
    stripPrefixChars_append "-".data rs
  have e4 : stripPrefixChars "+".data ('+' :: (as2 ++ ',' :: bs)) =
      some (as2 ++ ',' :: bs) := stripPrefixChars_append "+".data (as2 ++ ',' :: bs)
  have e5 := parseRangeField_single rs r1 h1
  have e6 := parseRangeField_pair as2 bs r2 n2 h3 h4
  have ebR : UnifiedDiffParser.consumeBody "missing removed line".data 1 r1
      (lr :: (bodyA ++ rest)) = .ok (bodyLines [lr] r1, bodyA ++ rest) :=
    consumeBody_append _ [lr] (bodyA ++ rest) r1 (by
      intro x hx
      rcases List.mem_cons.mp hx with h | h
      · exact h ▸ hlr
      · cases h)
  have ebA : UnifiedDiffParser.consumeBody "missing added line".data n2 r2
      (bodyA ++ rest) = .ok (bodyLines bodyA r2, rest) := by
    rw [← hlenA]
    exact consumeBody_append _ bodyA rest r2 hneA
  rw [hheader]
  unfold UnifiedDiffParser.read_hunk
  cases rest with
  | nil =>
    simp only [e1, e2, e3, e4, e5, e6, Nat.add_sub_cancel_left, ebR, ebA]
  | cons l rest2 =>
    have hl : startsWithChars l "diff ".data = false := by
      simpa using hdiff
    simp only [e1, e2, e3, e4, e5, e6, Nat.add_sub_cancel_left, ebR, ebA, hl]
    simp

/-- C6: `read_hunk` parses a hunk header `@@ -r[,n] +r[,n] @@...` into
removed range `[r, r+n)` and added range `[r, r+n)`, an omitted length
defaulting to 1; `"@@ -5 +5,3 @@"` consumes one removed line (row 5) and
three added lines (rows 5,6,7); and the round-trip diff text
`"--- a/f\n+++ b/f\n@@ -1,0 +2,2 @@\n+x\n+y\n"` yields file `"f"`, no
removed lines, and added lines `("x", 2)` and `("y", 3)`. -/
theorem read_hunk_ranges_and_roundtrip :
    (∀ (cf : List Char) (cpr cpa : Nat × Nat) (r1 n1 r2 n2 : Nat)
        (rs ns as2 bs tl : List Char) (bodyR bodyA rest : List (List Char)),
      parseUsize rs = some r1 → parseUsize ns = some n1 →
      parseUsize as2 = some r2 → parseUsize bs = some n2 →
      bodyR.length = n1 → bodyA.length = n2 →
      (∀ l ∈ bodyR, l ≠ []) → (∀ l ∈ bodyA, l ≠ []) →
      rest.head?.all (fun l => ¬ startsWithChars l "diff ".data) = true →
      UnifiedDiffParser.read_hunk
        { lines := ("@@ -".data ++ rs ++ ",".data ++ ns ++ " +".data ++ as2 ++
              ",".data ++ bs ++ " @@".data ++ tl) :: (bodyR ++ (bodyA ++ rest))
          current_file := cf
          current_patch_remove := cpr
          current_patch_add := cpa } =
        .ok ({ file := cf, removed := bodyLines bodyR r1, added := bodyLines bodyA r2 },
             { lines := rest
               current_file := cf
               current_patch_remove := cpr
               current_patch_add := cpa })) ∧
    (∀ (cf : List Char) (cpr cpa : Nat × Nat) (r1 r2 n2 : Nat)
        (rs as2 bs tl lr : List Char) (bodyA rest : List (List Char)),
      parseUsize rs = some r1 →
      parseUsize as2 = some r2 → parseUsize bs = some n2 →
      lr ≠ [] → bodyA.length = n2 → (∀ l ∈ bodyA, l ≠ []) →
      rest.head?.all (fun l => ¬ startsWithChars l "diff ".data) = true →
      UnifiedDiffParser.read_hunk
        { lines := ("@@ -".data ++ rs ++ " +".data ++ as2 ++
              ",".data ++ bs ++ " @@".data ++ tl) :: (lr :: (bodyA ++ rest))
          current_file := cf
          current_patch_remove := cpr
          current_patch_add := cpa } =
        .ok ({ file := cf
               removed := bodyLines [lr] r1
               added := bodyLines bodyA r2 },
             { lines := rest
               current_file := cf
               current_patch_remove := cpr
               current_patch_add := cpa })) ∧
    UnifiedDiffParser.read_hunk
      { lines := ["@@ -5 +5,3 @@".data, "-a".data, "+b".data, "+c".data, "+d".data]
        current_file := "f".data
        current_patch_remove := (0, 0)
        current_patch_add := (0, 0) } =
      .ok ({ file := "f".data
             removed := [⟨"a".data, 5⟩]
             added := [⟨"b".data, 5⟩, ⟨"c".data, 6⟩, ⟨"d".data, 7⟩] },
           { lines := []
             current_file := "f".data
             current_patch_remove := (0, 0)
             current_patch_add := (0, 0) }) ∧
    (match UnifiedDiffParser.new
        "--- a/f\n+++ b/f\n@@ -1,0 +2,2 @@\n+x\n+y\n".data with
     | .ok p => UnifiedDiffParser.read_hunk p
     | .err m => .err m
     | .panicked => .panicked) =
      .ok ({ file := "f".data
             removed := []
             added := [⟨"x".data, 2⟩, ⟨"y".data, 3⟩] },
           { lines := []
             current_file := "f".data
             current_patch_remove := (0, 0)
             current_patch_add := (0, 0) }) := by
  refine ⟨?_, ?_, ?_, ?_⟩
  · intro cf cpr cpa r1 n1 r2 n2 rs ns as2 bs tl bodyR bodyA rest
      h1 h2 h3 h4 hlenR hlenA hneR hneA hdiff
    exact read_hunk_wellformed_pair cf cpr cpa r1 n1 r2 n2 rs ns as2 bs tl
      bodyR bodyA rest h1 h2 h3 h4 hlenR hlenA hneR hneA hdiff
  · intro cf cpr cpa r1 r2 n2 rs as2 bs tl lr bodyA rest h1 h3 h4 hlr hlenA hneA hdiff
    exact read_hunk_wellformed_omitted cf cpr cpa r1 r2 n2 rs as2 bs tl lr
      bodyA rest h1 h3 h4 hlr hlenA hneA hdiff
  · decide
  · decide

/-- C6 witness: the general range statement evaluated on a concrete hunk
with both lengths present, a removed body, an added body and a following
non-diff line. -/
theorem read_hunk_ranges_and_roundtrip_witness :
    parseUsize "5".data = some 5 ∧ parseUsize "2".data = some 2 ∧
    parseUsize "7".data = some 7 ∧ parseUsize "1".data = some 1 ∧
    UnifiedDiffParser.read_hunk
      { lines := ["@@ -5,2 +7,1 @@ ctx".data, "-p".data, "-q".data, "+z".data, "next".data]
        current_file := "g".data
        current_patch_remove := (0, 0)
        current_patch_add := (0, 0) } =
      .ok ({ file := "g".data
             removed := [⟨"p".data, 5⟩, ⟨"q".data, 6⟩]
             added := [⟨"z".data, 7⟩] },
           { lines := ["next".data]
             current_file := "g".data
             current_patch_remove := (0, 0)
             current_patch_add := (0, 0) }) :=
  ⟨by decide, by decide, by decide, by decide, by
    have h := read_hunk_ranges_and_roundtrip.1 "g".data (0, 0) (0, 0) 5 2 7 1
      "5".data "2".data "7".data "1".data " ctx".data
      ["-p".data, "-q".data] ["+z".data] ["next".data]
      (by decide) (by decide) (by decide) (by decide) (by decide) (by decide)
      (by decide) (by decide) (by decide)
    have hhdr : ("@@ -".data ++ "5".data ++ ",".data ++ "2".data ++ " +".data ++
        "7".data ++ ",".data ++ "1".data ++ " @@".data ++ " ctx".data) =
        "@@ -5,2 +7,1 @@ ctx".data := by decide
    rw [hhdr] at h
    exact h.trans (by decide)⟩

/-- C7 (counterexample): a hunk body shorter than its declared length does
not fail when further lines are available — here the declared two added
lines are satisfied by consuming the following `diff --git` header line as
body text (stripping its first character), and `read_hunk` succeeds. -/
theorem read_hunk_accepts_short_body_with_following_lines :
    (match UnifiedDiffParser.new
        "--- a/f\n+++ b/f\n@@ -1,0 +2,2 @@\n+x\ndiff --git a b\n".data with
     | .ok p => UnifiedDiffParser.read_hunk p
     | .err m => .err m
     | .panicked => .panicked) =
      .ok ({ file := "f".data
             removed := []
             added := [⟨"x".data, 2⟩, ⟨"iff --git a b".data, 3⟩] },
           { lines := []
             current_file := "f".data
             current_patch_remove := (0, 0)
             current_patch_add := (0, 0) }) := by
  decide

theorem skipToMarker_skips (l : List Char) (rest : List (List Char))
    (hl : startsWithChars l "--- ".data = true ∨
      startsWithChars l "+++ ".data = true) :
    ∀ pre : List (List Char),
      (∀ x ∈ pre, startsWithChars x "--- ".data = false ∧
        startsWithChars x "+++ ".data = false) →
      UnifiedDiffParser.skipToMarker (pre ++ l :: rest) = .ok (l :: rest) := by
  intro pre
  induction pre with
  | nil =>
    intro _
    rw [List.nil_append]
    unfold UnifiedDiffParser.skipToMarker
    have hcond : (startsWithChars l "--- ".data ||
        startsWithChars l "+++ ".data) = true := by
      rcases hl with h | h <;> simp [h]
    simp [hcond]
  | cons x pre ih =>
    intro hpre
    have hx := hpre x (List.mem_cons_self x pre)
    rw [List.cons_append]
    unfold UnifiedDiffParser.skipToMarker
    rw [hx.1, hx.2]
    simpa using ih (fun y hy => hpre y (List.mem_cons_of_mem x hy))

theorem eat_file_header_missing_source (p : UnifiedDiffParser)
    (pre rest2 : List (List Char)) (l : List Char)
    (hlines : p.lines = pre ++ l :: rest2)
    (hpre : ∀ x ∈ pre, startsWithChars x "--- ".data = false ∧
      startsWithChars x "+++ ".data = false)
    (hminus : startsWithChars l "--- ".data = false)
    (hplus : startsWithChars l "+++ ".data = true) :
    UnifiedDiffParser.eat_file_header p = .err ("remove line invalid: ".data ++ l) := by
  unfold UnifiedDiffParser.eat_file_header
  rw [hlines, skipToMarker_skips l rest2 (Or.inr hplus) pre hpre]
  simp [hminus]

theorem eat_file_header_missing_target (p : UnifiedDiffParser)
    (pre rest3 : List (List Char)) (l1 l2 : List Char)
    (hlines : p.lines = pre ++ l1 :: l2 :: rest3)
    (hpre : ∀ x ∈ pre, startsWithChars x "--- ".data = false ∧
      startsWithChars x "+++ ".data = false)
    (h1 : startsWithChars l1 "--- ".data = true)
    (h2 : startsWithChars l2 "+++ ".data = false) :
    UnifiedDiffParser.eat_file_header p = .err ("add line invalid: ".data ++ l2) := by
  unfold UnifiedDiffParser.eat_file_header
  rw [hlines, skipToMarker_skips l1 (l2 :: rest3) (Or.inl h1) pre hpre]
  simp [h1, h2]

/-- C7 (amended): malformed file headers fail with a returned diagnostic
naming the offending line (a generic context message at end of input); an
unparsable row field fails with the returned generic diagnostic
`failed to parse row`, while an unparsable length field silently defaults
to 1; a hunk body shorter than the declared lengths fails with a returned
diagnostic only when the diff text is exhausted — otherwise following
lines are silently consumed as body lines and the hunk succeeds. -/
theorem diff_parser_failure_modes :
    (∀ (p : UnifiedDiffParser) (pre rest2 : List (List Char)) (l : List Char),
      p.lines = pre ++ l :: rest2 →
      (∀ x ∈ pre, startsWithChars x "--- ".data = false ∧
        startsWithChars x "+++ ".data = false) →
      startsWithChars l "--- ".data = false →
      startsWithChars l "+++ ".data = true →
      UnifiedDiffParser.eat_file_header p =
        .err ("remove line invalid: ".data ++ l)) ∧
    (∀ (p : UnifiedDiffParser) (pre rest3 : List (List Char)) (l1 l2 : List Char),
      p.lines = pre ++ l1 :: l2 :: rest3 →
      (∀ x ∈ pre, startsWithChars x "--- ".data = false ∧
        startsWithChars x "+++ ".data = false) →
      startsWithChars l1 "--- ".data = true →
      startsWithChars l2 "+++ ".data = false →
      UnifiedDiffParser.eat_file_header p =
        .err ("add line invalid: ".data ++ l2)) ∧
    UnifiedDiffParser.new "hello\nworld\n".data = .err "next line exists".data ∧
    UnifiedDiffParser.read_hunk
      { lines := ["@@ -x,0 +2,2 @@".data]
        current_file := "f".data
        current_patch_remove := (0, 0)
        current_patch_add := (0, 0) } = .err "failed to parse row".data ∧
    UnifiedDiffParser.read_hunk
      { lines := ["@@ -5,x +7 @@".data, "-a".data, "+b".data]
        current_file := "f".data
        current_patch_remove := (0, 0)
        current_patch_add := (0, 0) } =
      .ok ({ file := "f".data
             removed := [⟨"a".data, 5⟩]
             added := [⟨"b".data, 7⟩] },
           { lines := []
             current_file := "f".data
             current_patch_remove := (0, 0)
             current_patch_add := (0, 0) }) ∧
    (match UnifiedDiffParser.new "--- a/f\n+++ b/f\n@@ -1,0 +2,2 @@\n+x\n".data with
     | .ok p => UnifiedDiffParser.read_hunk p
     | .err m => .err m
     | .panicked => .panicked) = .err "missing added line".data ∧
    (match UnifiedDiffParser.new
        "--- a/f\n+++ b/f\n@@ -1,0 +2,2 @@\n+x\nXdiff --git a b\n".data with
     | .ok p => UnifiedDiffParser.read_hunk p
     | .err m => .err m
     | .panicked => .panicked) =
      .ok ({ file := "f".data
             removed := []
             added := [⟨"x".data, 2⟩, ⟨"diff --git a b".data, 3⟩] },
           { lines := []
             current_file := "f".data
             current_patch_remove := (0, 0)
             current_patch_add := (0, 0) }) :=
  ⟨eat_file_header_missing_source, eat_file_header_missing_target,
    by decide, by decide, by decide, by decide, by decide⟩

/-- C7 witness: the two header-failure statements evaluated on concrete
diffs. -/
theorem diff_parser_failure_modes_witness :
    (["junk".data, "+++ b/f".data, "more".data] : List (List Char)) =
      ["junk".data] ++ "+++ b/f".data :: ["more".data] ∧
    startsWithChars "+++ b/f".data "--- ".data = false ∧
    startsWithChars "+++ b/f".data "+++ ".data = true ∧
    UnifiedDiffParser.eat_file_header
      { lines := ["junk".data, "+++ b/f".data, "more".data]
        current_file := []
        current_patch_remove := (0, 0)
        current_patch_add := (0, 0) } =
      .err ("remove line invalid: ".data ++ "+++ b/f".data) ∧
    startsWithChars "--- a/f".data "--- ".data = true ∧
    startsWithChars "@@ -1 +1 @@".data "+++ ".data = false ∧
    UnifiedDiffParser.eat_file_header
      { lines := ["--- a/f".data, "@@ -1 +1 @@".data]
        current_file := []
        current_patch_remove := (0, 0)
        current_patch_add := (0, 0) } =
      .err ("add line invalid: ".data ++ "@@ -1 +1 @@".data) :=
  ⟨by decide, by decide, by decide,
    diff_parser_failure_modes.1
      { lines := ["junk".data, "+++ b/f".data, "more".data]
        current_file := []
        current_patch_remove := (0, 0)
        current_patch_add := (0, 0) }
      ["junk".data] ["more".data] "+++ b/f".data
      (by decide) (by decide) (by decide) (by decide),
    by decide, by decide,
    diff_parser_failure_modes.2.1
      { lines := ["--- a/f".data, "@@ -1 +1 @@".data]
        current_file := []
        current_patch_remove := (0, 0)
        current_patch_add := (0, 0) }
      [] [] "--- a/f".data "@@ -1 +1 @@".data
      (by decide) (by decide) (by decide) (by decide)⟩

/-! ## Claim theorems: run verdict and per-file error handling -/

/-- C8: the run fails with `untracked issues found!` iff at least one
untracked finding survives the report-kind filter; when every reported
finding is tracked the run succeeds, even when the (non-zero) tracked
findings were printed. -/
theorem main_verdict_iff_untracked :
    (∀ (report_kind : ReportKind) (issues : List TodoError),
      mainVerdict report_kind issues = .error "untracked issues found!".data ↔
        ∃ t ∈ issues.filter (reportFilter report_kind), t.is_tracked = false) ∧
    (∀ (report_kind : ReportKind) (issues : List TodoError),
      (∀ t ∈ issues.filter (reportFilter report_kind), t.is_tracked = true) →
      mainVerdict report_kind issues = .ok ()) := by
  constructor
  · intro report_kind issues
    unfold mainVerdict
    constructor
    · intro h
      split at h
      · next hany =>
        rcases List.any_eq_true.mp hany with ⟨t, ht, hna⟩
        exact ⟨t, ht, by simpa using hna⟩
      · exact absurd h (by simp)
    · intro ⟨t, ht, hf⟩
      rw [if_pos]
      exact List.any_eq_true.mpr ⟨t, ht, by simp [hf]⟩
  · intro report_kind issues hall
    unfold mainVerdict
    have hno : (issues.filter (reportFilter report_kind)).any
        (fun t => !t.is_tracked) = false := by
      rw [List.any_eq_false]
      intro t ht
      simp [hall t ht]
    simp [hno]

/-- C8 witness: a run whose only (printed) finding is tracked succeeds
under the `All` report kind. -/
theorem main_verdict_iff_untracked_witness :
    (([{ tracking_id := some "7".data
         original_line := "// TODO(#7): x".data
         span_len := 12
         row := 1
         col := 4
         file_path := "m.rs".data
         message := "x".data
         help_message := none }] : List TodoError).filter
      (reportFilter .All)).length = 1 ∧
    (∀ t ∈ ([{ tracking_id := some "7".data
               original_line := "// TODO(#7): x".data
               span_len := 12
               row := 1
               col := 4
               file_path := "m.rs".data
               message := "x".data
               help_message := none }] : List TodoError).filter
        (reportFilter .All), t.is_tracked = true) ∧
    mainVerdict .All
      [{ tracking_id := some "7".data
         original_line := "// TODO(#7): x".data
         span_len := 12
         row := 1
         col := 4
         file_path := "m.rs".data
         message := "x".data
         help_message := none }] = .ok () :=
  ⟨by decide, by decide,
    main_verdict_iff_untracked.2 .All
      [{ tracking_id := some "7".data
         original_line := "// TODO(#7): x".data
         span_len := 12
         row := 1
         col := 4
         file_path := "m.rs".data
         message := "x".data
         help_message := none }] (by decide)⟩

/-- C9 (counterexample): in the CommentAware (syntect) checker, a file for
which a grammar was found by extension but whose read fails (unreadable or
non-UTF-8) is not silently skipped — `read_to_string(..).unwrap()` panics
and the whole run dies (`none`), not the skip (`some []`) the claim
asserts. -/
theorem syntect_checker_panics_on_unreadable_file :
    SourceTreeSyntectChecker.process_file cfgLit "conf.toml".data true none
      (fun _ _ _ => some []) = none ∧
    (none : Option (List TodoError)) ≠ some [] := by
  constructor
  · rfl
  · decide

/-- C9 (amended): FullTree silently skips a file whose read fails and
continues; CommentAware skips such a file only when no grammar was found
for it — when a grammar was found by extension, the failed read panics the
whole run. -/
theorem checker_read_failure_handling :
    (∀ (config : Regexes) (file_path : List Char),
      SourceTreeSimpleChecker.process_file config file_path none = some []) ∧
    (∀ (config : Regexes) (file_path : List Char)
        (comment_scan : Regexes → List Char → List Char → Option (List TodoError))
        (read_result : Option (List Char)),
      SourceTreeSyntectChecker.process_file config file_path false read_result
        comment_scan = some []) ∧
    (∀ (config : Regexes) (file_path : List Char)
        (comment_scan : Regexes → List Char → List Char → Option (List TodoError)),
      SourceTreeSyntectChecker.process_file config file_path true none
        comment_scan = none) :=
  ⟨fun _ _ => rfl, fun _ _ _ _ => rfl, fun _ _ _ => rfl⟩
